import Mathlib

/-!
# Time-Warp-O-Matic: verification of the settings store and controller

A shallow embedding of the wear-leveled EEPROM settings store
(`Eeprom.hpp`), the interrupt-driven parameter controller (`rotate`,
`extClock`), the clock-timeout handling in `loop`, and the deferred
persistence scheduler (`updateEepromTimer` / `writeSettingsToEeprom`)
of the Time-Warp-O-Matic firmware, together with proofs and
refutations of the specified properties.

The EEPROM is modelled as a flat byte memory `Nat → Nat` (each cell a
byte value `< 256`); `EEPROM.put` of an `unsigned long` writes its four
little-endian bytes (AVR is little-endian), `EEPROM.put` of the settings
struct writes its byte serialization. Machine integers are modelled as
`Nat` with explicit `% 256` (bytes) and `% 2^32` (`unsigned long`)
where overflow matters.
-/

/-- Byte-addressable memory: address to byte value. -/
def Mem : Type := Nat → Nat

/-- Write one byte (truncated to 8 bits, as an EEPROM cell stores a byte). -/
def putByte (m : Mem) (a b : Nat) : Mem := Function.update m a (b % 256)

/-- `EEPROM.put(a, v)` for a 4-byte `unsigned long`: little-endian byte order. -/
def put32 (m : Mem) (a v : Nat) : Mem :=
  putByte (putByte (putByte (putByte m a v) (a + 1) (v / 256)) (a + 2) (v / 65536))
    (a + 3) (v / 16777216)

/-- `EEPROM.get(a, v)` for a 4-byte `unsigned long`: assemble four
little-endian bytes. -/
def get32 (m : Mem) (a : Nat) : Nat :=
  m a + 256 * m (a + 1) + 65536 * m (a + 2) + 16777216 * m (a + 3)

/-- `EEPROM.put(a, struct)`: write a list of bytes starting at `a`. -/
def putBytes : Mem → Nat → List Nat → Mem
  | m, _, [] => m
  | m, a, b :: t => putBytes (putByte m a b) (a + 1) t

/-- `EEPROM.get(a, struct)`: read `n` consecutive bytes starting at `a`. -/
def readBytes (m : Mem) (a n : Nat) : List Nat :=
  (List.range n).map (fun i => m (a + i))

/-! ## Constants from `Eeprom.hpp`, `config.h` and `main.h` -/

abbrev DATA_MARKER : Nat := 0x66666666
abbrev ERASE_MARKER : Nat := 0x33333333
abbrev EMPTY_MARKER : Nat := 0x22222222
abbrev SIZE_OF_DATA_MARKER : Nat := 4

abbrev NR_OF_EFFECTS : Nat := 13
abbrev NR_OF_MULT_FACTORS : Nat := 16
abbrev NR_OF_CYCLES : Nat := 3
abbrev DELAY_TIME_MIN : Nat := 7
abbrev EXT_CLOCK_TIMEOUT : Nat := 2000000
abbrev LED_DELAY : Nat := 1000
abbrev DELAY_TIME_BEFORE_WRITING_TO_EEPROM_IN_MS : Nat := 10000
abbrev INITIAL_EFFECT : Int := 1
abbrev DECELERATOR_UPDATE_TIME_MAX : Nat := 100
abbrev WOW_NOT_FLUTTER_TIME_MAX : Nat := 60

/-- `sizeof(SettingsObjType)`: 13 `delayTime` bytes, 1 `bool` byte, 1
`int8_t` byte, 13 `baseFactorIndex` bytes = 28 bytes (AVR packs the
struct with no padding). -/
abbrev SIZE_OF_SETTINGS_STRUCT : Nat := 28

/-! ## The settings struct (`SettingsObjType` in `main.h`) -/

/-- `SettingsObjType`: per-effect delay times (bytes), wet/dry flag,
active effect (`int8_t`), per-effect rhythmic-ratio indices (bytes). -/
structure SettingsObjType where
  delayTime : Fin NR_OF_EFFECTS → Nat
  isWetAndDrySelected : Bool
  effect : Int
  baseFactorIndex : Fin NR_OF_EFFECTS → Nat

/-- The byte stored for an `int8_t` (two's complement). -/
def byteOfInt8 (i : Int) : Nat := (i % 256).toNat

/-- Reading a byte back as an `int8_t`. -/
def int8OfByte (b : Nat) : Int := if b < 128 then (b : Int) else (b : Int) - 256

/-- Struct layout of `SettingsObjType` as the 28 bytes the AVR compiler
lays out: `delayTime[0..12]`, `isWetAndDrySelected`, `effect`,
`baseFactorIndex[0..12]`. -/
def encodeSettings (s : SettingsObjType) : List Nat :=
  [s.delayTime 0, s.delayTime 1, s.delayTime 2, s.delayTime 3, s.delayTime 4,
   s.delayTime 5, s.delayTime 6, s.delayTime 7, s.delayTime 8, s.delayTime 9,
   s.delayTime 10, s.delayTime 11, s.delayTime 12,
   (if s.isWetAndDrySelected then 1 else 0),
   byteOfInt8 s.effect,
   s.baseFactorIndex 0, s.baseFactorIndex 1, s.baseFactorIndex 2,
   s.baseFactorIndex 3, s.baseFactorIndex 4, s.baseFactorIndex 5,
   s.baseFactorIndex 6, s.baseFactorIndex 7, s.baseFactorIndex 8,
   s.baseFactorIndex 9, s.baseFactorIndex 10, s.baseFactorIndex 11,
   s.baseFactorIndex 12]

/-- Interpreting 28 bytes as a `SettingsObjType` (what `EEPROM.get` into
the struct does). -/
def decodeSettings (bs : List Nat) : SettingsObjType where
  delayTime := fun i => bs.getD i.val 0
  isWetAndDrySelected := decide (bs.getD 13 0 ≠ 0)
  effect := int8OfByte (bs.getD 14 0)
  baseFactorIndex := fun i => bs.getD (15 + i.val) 0

/-! ## The `Eeprom` class (`Eeprom.hpp`) -/

/-- The `Eeprom` object's state together with the EEPROM memory it acts
on. `eeprom_currentAddress` and `eeprom_sizeInBytes` are the private
members; `mem` is the attached EEPROM content. -/
structure Eeprom where
  eeprom_sizeInBytes : Nat
  eeprom_currentAddress : Nat
  blocked : Bool
  mem : Mem

/-- Number of iterations of the `init()` scan loop
`for (addr = 0; addr < size - recordSize; addr += 4)`:
the addresses visited are `4*k` for `k < ⌈(size - recordSize)/4⌉`. -/
def numScanSlots (size recordSize : Nat) : Nat := (size - recordSize + 3) / 4

/-- The marker-scan of `Eeprom::init`: first marker-aligned address
`a < size - recordSize` whose 4-byte word equals `DATA_MARKER`. -/
def findMarker (m : Mem) (size recordSize : Nat) : Option Nat :=
  ((List.range (numScanSlots size recordSize)).find?
    (fun k => get32 m (4 * k) == DATA_MARKER)).map (fun k => 4 * k)

/-- `Eeprom::init` (as invoked by the constructor `Eeprom(length)`):
block if the record size is not a multiple of the marker size; degrade
to fixed address 0 if record + marker exceed the capacity; otherwise
scan for a live `DATA_MARKER`, and if none is found write
`EMPTY_MARKER` at address 0. `recordSize` stands for the compile-time
constant `SIZE_OF_SETTINGS_STRUCT` of the instantiating sketch. -/
def Eeprom.init (recordSize size : Nat) (m : Mem) : Eeprom :=
  if recordSize % SIZE_OF_DATA_MARKER ≠ 0 then
    { eeprom_sizeInBytes := size, eeprom_currentAddress := 0, blocked := true, mem := m }
  else if recordSize + SIZE_OF_DATA_MARKER > size then
    { eeprom_sizeInBytes := size, eeprom_currentAddress := 0, blocked := false, mem := m }
  else
    match findMarker m size recordSize with
    | some a =>
        { eeprom_sizeInBytes := size, eeprom_currentAddress := a, blocked := false, mem := m }
    | none =>
        { eeprom_sizeInBytes := size, eeprom_currentAddress := 0, blocked := false,
          mem := put32 m 0 EMPTY_MARKER }

/-- `Eeprom::write(settings)`: read the word at the cursor, erase the
marker there (`eraseMarkerByte`), then either write in place (empty
store) or advance the cursor — wrapping to 0 when
`tmpAddress > eeprom_sizeInBytes - 1` — and write marker plus record.
Returns the new state and the `long` return value. `rs` is the byte
serialization of the settings argument (`rs.length = sizeof(settings)`). -/
def Eeprom.write (rs : List Nat) (e : Eeprom) : Eeprom × Int :=
  if e.blocked then (e, -1)
  else
    let dataItem := get32 e.mem e.eeprom_currentAddress
    let m1 := put32 e.mem e.eeprom_currentAddress ERASE_MARKER
    if dataItem = EMPTY_MARKER then
      let m2 := putBytes (put32 m1 e.eeprom_currentAddress DATA_MARKER)
        (e.eeprom_currentAddress + SIZE_OF_DATA_MARKER) rs
      ({ e with mem := m2 }, (rs.length : Int) + (SIZE_OF_DATA_MARKER : Int))
    else
      let tmpAddress := e.eeprom_currentAddress + rs.length + SIZE_OF_DATA_MARKER
      let newAddr := if tmpAddress > e.eeprom_sizeInBytes - 1 then 0 else tmpAddress
      let m2 := putBytes (put32 m1 newAddr DATA_MARKER) (newAddr + SIZE_OF_DATA_MARKER) rs
      ({ e with eeprom_currentAddress := newAddr, mem := m2 },
        (rs.length : Int) + (SIZE_OF_DATA_MARKER : Int))

/-- `Eeprom::read(p)`: fail if blocked or if the record would not fit
below the end of the EEPROM (`cursor + recordSize > size`); otherwise
require a live `DATA_MARKER` at the cursor and return the record bytes
stored right after it. -/
def Eeprom.read (recordSize : Nat) (e : Eeprom) : Option (List Nat) × Int :=
  if e.blocked then (none, -1)
  else if e.eeprom_currentAddress + recordSize > e.eeprom_sizeInBytes then (none, -1)
  else if get32 e.mem e.eeprom_currentAddress = DATA_MARKER then
    (some (readBytes e.mem (e.eeprom_currentAddress + SIZE_OF_DATA_MARKER) recordSize),
      (recordSize : Int))
  else (none, -1)

/-- `Eeprom::read(&settings)` at the type it is used with in the sketch:
the bytes read by `EEPROM.get` land in a `SettingsObjType`. -/
def Eeprom.readSettings (e : Eeprom) : Option SettingsObjType × Int :=
  match Eeprom.read SIZE_OF_SETTINGS_STRUCT e with
  | (some bs, r) => (some (decodeSettings bs), r)
  | (none, r) => (none, r)

/-- Iterated `Eeprom::write` of the same record (`n` calls). -/
def iterWrite (rs : List Nat) (e : Eeprom) : Nat → Eeprom
  | 0 => e
  | n + 1 => (Eeprom.write rs (iterWrite rs e n)).1

/-- The 4-byte little-endian word formed by `l` at offset `k`. -/
def wordAt (l : List Nat) (k : Nat) : Nat :=
  l.getD k 0 + 256 * l.getD (k + 1) 0 + 65536 * l.getD (k + 2) 0 +
    16777216 * l.getD (k + 3) 0

/-! ## Controller and clock-estimator state (globals of the main sketch) -/

/-- 8-bit wraparound addition (`byte + byte` truncated back into a byte). -/
def byteAdd (a b : Nat) : Nat := (a % 256 + b % 256) % 256

/-- 8-bit wraparound subtraction (`byte - byte` truncated back into a byte). -/
def byteSub (a b : Nat) : Nat := (a % 256 + 256 - b % 256) % 256

/-- 32-bit wraparound subtraction (`unsigned long` arithmetic, as in
`micros() - oldTime`). -/
def u32sub (a b : Nat) : Nat := (a % 4294967296 + 4294967296 - b % 4294967296) % 4294967296

/-- The byte value of `countDirection = RIGHT` (`#define RIGHT 1`). -/
abbrev RIGHT_byte : Nat := 1

/-- The byte value of `countDirection = LEFT`: `#define LEFT -1` assigned
to a `byte` variable stores `255`. -/
abbrev LEFT_byte : Nat := 255

/-- Effect indices from `config.h`. -/
abbrev DECELERATOR : Int := 0
abbrev CHORUS : Int := 6
abbrev FAST_CHORUS : Int := 7
abbrev REVERB : Int := 8
abbrev WOW_NOT_FLUTTER : Int := 9

/-- `delayTimeMax` as initialized in `setup()`: all 255 except
`DECELERATOR` (100) and `WOW_NOT_FLUTTER` (60). -/
def delayTimeMax (i : Fin NR_OF_EFFECTS) : Nat :=
  if i.val = 0 then DECELERATOR_UPDATE_TIME_MAX
  else if i.val = 9 then WOW_NOT_FLUTTER_TIME_MAX
  else 255

/-- The macro `isChorusOrReverb` from `config.h`:
`settings.effect == CHORUS || settings.effect == FAST_CHORUS || settings.effect == REVERB`. -/
def isChorusOrReverb (e : Int) : Bool := e == CHORUS || e == FAST_CHORUS || e == REVERB

/-- Array subscript `settings.delayTime[settings.effect]` for an
in-range `effect` (the theorems always hypothesize `0 ≤ effect < 13`,
where this agrees with the C subscript). -/
def idx13 (e : Int) : Fin NR_OF_EFFECTS := ⟨e.toNat % 13, Nat.mod_lt _ (by norm_num)⟩

/-- The firmware globals touched by the `rotate` and `extClock`
interrupt handlers and the clock-timeout check in `loop()`. -/
structure Sys where
  settings : SettingsObjType
  coarseDelayTime : Nat
  countDirection : Nat
  inSelectMode : Bool
  fineTuneDelayTime : Bool
  useSymbolicTimeString : Bool
  irqCounter : Nat
  thisTime : Nat
  oldTime : Nat
  sumTime : Nat
  cycleTime : Nat
  ledDelay : Nat

/-- Encoder rotation direction as returned by `rotary.process()`. -/
inductive Dir where
  | ccw : Dir
  | cw : Dir
  | idle : Dir

/-- The `rotate()` interrupt service routine. `symRaw` stands for the
value of the floating-point expression
`byte(236.88 * pow(0.9978, baseFactor[...] * cycleTime / DIV_FACTOR))`
at this call (a byte, abstracted as an input because it is computed in
`float`); every other step is translated literally. -/
def rotateStep (symRaw : Nat) (d : Dir) (s : Sys) : Sys :=
  match d with
  | Dir.idle => s
  | Dir.ccw =>
    if s.inSelectMode then
      { s with settings := { s.settings with
          effect := if s.settings.effect > 0 then s.settings.effect - 1
                    else (NR_OF_EFFECTS : Int) - 1 } }
    else
      let e := idx13 s.settings.effect
      let bfi0 := s.settings.baseFactorIndex e
      let bfi1 := if bfi0 > 0 then byteSub bfi0 s.countDirection else 0
      let useSym := s.useSymbolicTimeString && !(isChorusOrReverb s.settings.effect)
      let dt0 := s.settings.delayTime e
      let dtRaw := if !s.fineTuneDelayTime then
                     (if useSym then symRaw % 256 else byteSub dt0 s.countDirection)
                   else byteSub dt0 s.countDirection
      let coarse := if !s.fineTuneDelayTime && useSym then dtRaw else s.coarseDelayTime
      let dt1 := if dtRaw < DELAY_TIME_MIN then DELAY_TIME_MIN else dtRaw
      { s with
        settings := { s.settings with
          baseFactorIndex := Function.update s.settings.baseFactorIndex e bfi1,
          delayTime := Function.update s.settings.delayTime e dt1 },
        coarseDelayTime := coarse }
  | Dir.cw =>
    if s.inSelectMode then
      { s with settings := { s.settings with
          effect := if s.settings.effect + 1 > (NR_OF_EFFECTS : Int) - 1 then 0
                    else s.settings.effect + 1 } }
    else
      let e := idx13 s.settings.effect
      let bfi0 := s.settings.baseFactorIndex e
      let bfiAdd := byteAdd bfi0 s.countDirection
      let bfi1 := if bfiAdd > NR_OF_MULT_FACTORS - 1 then NR_OF_MULT_FACTORS - 1 else bfiAdd
      let useSym := s.useSymbolicTimeString && !(isChorusOrReverb s.settings.effect)
      let dt0 := s.settings.delayTime e
      let dtRaw := if !s.fineTuneDelayTime then
                     (if useSym then symRaw % 256 else byteAdd dt0 s.countDirection)
                   else byteAdd dt0 s.countDirection
      let coarse := if !s.fineTuneDelayTime && useSym then dtRaw else s.coarseDelayTime
      let dt1 := if dtRaw > delayTimeMax e then delayTimeMax e else dtRaw
      { s with
        settings := { s.settings with
          baseFactorIndex := Function.update s.settings.baseFactorIndex e bfi1,
          delayTime := Function.update s.settings.delayTime e dt1 },
        coarseDelayTime := coarse }

/-- The `extClock()` interrupt service routine, called on each rising
edge of the external clock input with `now = micros()`. `tempoRaw`
stands for the value of the floating-point expression
`byte(236.88 * pow(0.9978, baseFactor[...] * cycleTime / 1000))` at
this call (a byte, abstracted as an input); the clamping against
`delayTimeMax` and `DELAY_TIME_MIN` and all state updates are
translated literally. -/
def extClock (tempoRaw now : Nat) (s : Sys) : Sys :=
  let irq := (s.irqCounter + 1) % 256
  let thisT := now % 4294967296
  let sum := (s.sumTime + u32sub thisT s.oldTime) % 4294967296
  let s1 := { s with irqCounter := irq, thisTime := thisT, sumTime := sum, oldTime := thisT }
  if irq > NR_OF_CYCLES then
    let cyc := sum / irq
    let e := idx13 s.settings.effect
    let settings1 :=
      if !s.fineTuneDelayTime then
        let tmp0 := tempoRaw % 256
        let tmp1 := if tmp0 > delayTimeMax e then delayTimeMax e else tmp0
        let tmp2 := if tmp1 < DELAY_TIME_MIN then DELAY_TIME_MIN else tmp1
        { s.settings with delayTime := Function.update s.settings.delayTime e tmp2 }
      else s.settings
    { s1 with
      settings := settings1, cycleTime := cyc, useSymbolicTimeString := true,
      ledDelay := LED_DELAY / 10, irqCounter := 0, sumTime := 0 }
  else s1

/-- The external-clock timeout check at the end of `loop()`:
`if (useSymbolicTimeString & ((micros() - thisTime) > EXT_CLOCK_TIMEOUT))`
clear `useSymbolicTimeString` and restore the LED period. -/
def timeoutCheck (now : Nat) (s : Sys) : Sys :=
  if s.useSymbolicTimeString && decide (u32sub now s.thisTime > EXT_CLOCK_TIMEOUT) then
    { s with useSymbolicTimeString := false, ledDelay := LED_DELAY }
  else s

/-- Run `extClock` over a list of pulse timestamps (the tempo oracle is
irrelevant to the cycle-time bookkeeping and is fixed to 0). -/
def extClockRun (s : Sys) (ts : List Nat) : Sys :=
  ts.foldl (fun st t => extClock 0 t st) s

/-- The cycle-time estimates emitted (i.e. the assignments
`cycleTime = sumTime / irqCounter`) while feeding a list of pulse
timestamps to `extClock`. -/
def emissions : Sys → List Nat → List Nat
  | _, [] => []
  | s, t :: ts =>
    let s1 := extClock 0 t s
    if (s.irqCounter + 1) % 256 > NR_OF_CYCLES then s1.cycleTime :: emissions s1 ts
    else emissions s1 ts

/-! ## Deferred persistence (`updateEepromTimer` / `writeSettingsToEeprom`) -/

/-- An observable event for the persistence scheduler: a dirty
notification (`updateEepromTimer()` called at `millis() = t`) or a main
loop poll (`writeSettingsToEeprom()` called at `millis() = t`). -/
inductive PEvent where
  | dirty : Nat → PEvent
  | poll : Nat → PEvent

/-- The globals of the persistence scheduler plus a count of
`eeprom.write` invocations performed so far. -/
structure PState where
  writeToEeprom : Bool
  writeTimer : Nat
  writes : Nat

/-- One event step, in the source's wrapping 32-bit `unsigned long`
arithmetic: `updateEepromTimer` sets the flag and restarts the
quiescence timer (`writeTimer = millis() + 10000`, wrapping at 2^32);
`writeSettingsToEeprom` invokes the store write exactly when the flag
is set and `millis() > writeTimer` (a plain unsigned comparison, not an
overflow-safe difference), then clears the flag. Event times are the
32-bit `millis()` readings (reduced mod 2^32). -/
def pstep (s : PState) : PEvent → PState
  | PEvent.dirty t =>
      { s with writeToEeprom := true,
               writeTimer := (t % 4294967296 + DELAY_TIME_BEFORE_WRITING_TO_EEPROM_IN_MS) %
                 4294967296 }
  | PEvent.poll t =>
      if s.writeToEeprom = true ∧ s.writeTimer < t % 4294967296 then
        { s with writeToEeprom := false, writes := s.writes + 1 }
      else s

/-- Fold a trace of interleaved dirty/poll events. -/
def prun (s : PState) (es : List PEvent) : PState := es.foldl pstep s

/-- A burst block: one dirty notification followed by a stretch of main
loop polls. -/
def pblock (d : Nat) (ps : List Nat) : List PEvent :=
  PEvent.dirty d :: ps.map PEvent.poll

/-- A trace of successive burst blocks. -/
def ptrace : List (Nat × List Nat) → List PEvent
  | [] => []
  | b :: bs => pblock b.1 b.2 ++ ptrace bs

/-! ## Validity, boot-time load, and concrete stores and states -/

/-- The Settings invariants stated in the specification: each delay
value in `[DELAY_TIME_MIN, delayTimeMax[effect]]`, each ratio index in
`[0, NR_OF_MULT_FACTORS - 1]`, effect index in `[0, NR_OF_EFFECTS - 1]`. -/
abbrev validSettings (s : SettingsObjType) : Prop :=
  (∀ i, DELAY_TIME_MIN ≤ s.delayTime i ∧ s.delayTime i ≤ delayTimeMax i) ∧
  (∀ i, s.baseFactorIndex i ≤ NR_OF_MULT_FACTORS - 1) ∧
  0 ≤ s.effect ∧ s.effect < (NR_OF_EFFECTS : Int)

/-- The boot-time load in `setup()`: `eeprom.read(&settings)`. On a
successful read the struct is overwritten with the stored bytes; on
failure (`-1`) the global `settings` keeps its compiled-in value. -/
def bootLoad (defaults : SettingsObjType) (e : Eeprom) : SettingsObjType :=
  match Eeprom.readSettings e with
  | (some s, _) => s
  | (none, _) => defaults

/-- The compiled-in value of the global `settings` struct: zero
initialized except `effect = INITIAL_EFFECT` (default member
initializer). -/
def defaultSettings : SettingsObjType :=
  { delayTime := fun _ => 0, isWetAndDrySelected := false,
    effect := INITIAL_EFFECT, baseFactorIndex := fun _ => 0 }

/-- An all-zero (fresh) EEPROM content. -/
def memZero : Mem := fun _ => 0

/-- A valid settings value used in concrete runs. -/
def sGood : SettingsObjType :=
  { delayTime := fun _ => 20, isWetAndDrySelected := true,
    effect := 1, baseFactorIndex := fun _ => 7 }

/-- A valid settings value whose serialized bytes contain the
`DATA_MARKER` pattern: `delayTime[4..7] = 102 = 0x66`, which sit at a
marker-aligned offset of the stored record. -/
def sMarker : SettingsObjType :=
  { delayTime := fun i => if 4 ≤ i.val ∧ i.val ≤ 7 then 102 else 20,
    isWetAndDrySelected := false, effect := 1, baseFactorIndex := fun _ => 7 }

/-- A settings value with an out-of-range effect index (100 ≥ 13) that
still fits in an `int8_t`. -/
def sBad : SettingsObjType :=
  { delayTime := fun _ => 20, isWetAndDrySelected := false,
    effect := 100, baseFactorIndex := fun _ => 7 }

/-- A fresh initialized store of 70 bytes (unblocked: 28 is a multiple
of 4; 28 + 4 ≤ 70). -/
def e70 : Eeprom := Eeprom.init SIZE_OF_SETTINGS_STRUCT 70 memZero

/-- The 70-byte store after one write of `sGood`. -/
def e70w : Eeprom := (Eeprom.write (encodeSettings sGood) e70).1

/-- The 70-byte store after one write of the marker-patterned payload. -/
def eMark : Eeprom := (Eeprom.write (encodeSettings sMarker) e70).1

/-- The 70-byte store holding a record with out-of-range effect 100. -/
def eBad : Eeprom := (Eeprom.write (encodeSettings sBad) e70).1

/-- All live `DATA_MARKER` words at marker-aligned addresses of the
memory sit at the single address `c`. -/
abbrev liveMarkerUnique (m : Mem) (size c : Nat) : Prop :=
  ∀ a, a < size → a % 4 = 0 → get32 m a = DATA_MARKER → a = c

/-- The spec's concrete wear-leveling scenario: capacity 512, marker 4,
record 16. -/
def rs16 : List Nat := List.replicate 16 1

/-- A fresh initialized store of 512 bytes for 16-byte records. -/
def e512 : Eeprom := Eeprom.init 16 512 memZero

/-- The firmware globals as initialized at boot (after `setup()` ran
with no external clock yet): counters zeroed, select mode on, fine-tune
off, numeric (non-symbolic) time display. -/
def bootSys : Sys :=
  { settings := sGood, coarseDelayTime := 0, countDirection := RIGHT_byte,
    inSelectMode := true, fineTuneDelayTime := false, useSymbolicTimeString := false,
    irqCounter := 0, thisTime := 0, oldTime := 0, sumTime := 0, cycleTime := 0,
    ledDelay := LED_DELAY }

/-- SetParameter mode on the wow-not-flutter effect (whose convention is
`countDirection = LEFT`) with its delay value at the upper bound 60. -/
def c4state : Sys :=
  { settings := { delayTime := fun _ => 60, isWetAndDrySelected := false,
                  effect := WOW_NOT_FLUTTER, baseFactorIndex := fun _ => 7 },
    coarseDelayTime := 0, countDirection := LEFT_byte, inSelectMode := false,
    fineTuneDelayTime := false, useSymbolicTimeString := false, irqCounter := 0,
    thisTime := 0, oldTime := 0, sumTime := 0, cycleTime := 0, ledDelay := LED_DELAY }

/-- SetParameter mode on the reverb effect (`countDirection = LEFT`)
with its ratio index at the upper bound 15. -/
def c5state : Sys :=
  { settings := { delayTime := fun _ => 20, isWetAndDrySelected := false,
                  effect := REVERB, baseFactorIndex := fun _ => 15 },
    coarseDelayTime := 0, countDirection := LEFT_byte, inSelectMode := false,
    fineTuneDelayTime := false, useSymbolicTimeString := false, irqCounter := 0,
    thisTime := 0, oldTime := 0, sumTime := 0, cycleTime := 0, ledDelay := LED_DELAY }

/-- A state about to complete an averaging window (`irqCounter = 3`)
on the chorus effect while in SelectEffect mode. -/
def c10state : Sys :=
  { settings := { delayTime := fun _ => 20, isWetAndDrySelected := false,
                  effect := CHORUS, baseFactorIndex := fun _ => 7 },
    coarseDelayTime := 0, countDirection := RIGHT_byte, inSelectMode := true,
    fineTuneDelayTime := false, useSymbolicTimeString := false, irqCounter := 3,
    thisTime := 1500000, oldTime := 1500000, sumTime := 1500000, cycleTime := 0,
    ledDelay := LED_DELAY }

/-- Pre-gap pulse trains: run A gets two extra pulses (2.5 s, 3.0 s)
after its first completed window, run B only one (3.0 s). -/
def c7preA : List Nat := [500000, 1000000, 1500000, 2000000, 2500000, 3000000]

def c7preB : List Nat := [500000, 1000000, 1500000, 2000000, 3000000]

/-- Identical post-gap pulses for both runs (500 ms spacing). -/
def c7post : List Nat := [5200000, 5700000, 6200000]

/-- Run A at the moment pulses resume: pre-gap pulses, then the silence
gap is noticed by `loop()` at 5.1 s (2.1 s after the last pulse). -/
def c7stateA : Sys := timeoutCheck 5100000 (extClockRun bootSys c7preA)

/-- Run B at the moment pulses resume. -/
def c7stateB : Sys := timeoutCheck 5100000 (extClockRun bootSys c7preB)


/-- SetParameter mode on the short-delay effect (`countDirection =
RIGHT`) with mid-range values, used as a witness state. -/
def c4rstate : Sys :=
  { settings := { delayTime := fun _ => 20, isWetAndDrySelected := false,
                  effect := 1, baseFactorIndex := fun _ => 7 },
    coarseDelayTime := 0, countDirection := RIGHT_byte, inSelectMode := false,
    fineTuneDelayTime := false, useSymbolicTimeString := false, irqCounter := 0,
    thisTime := 0, oldTime := 0, sumTime := 0, cycleTime := 0, ledDelay := LED_DELAY }


/-! ## Basic memory lemmas -/

theorem putByte_apply_self (m : Mem) (a b : Nat) : putByte m a b a = b % 256 := by
  simp [putByte]

theorem putByte_apply_ne (m : Mem) (a b x : Nat) (h : x ≠ a) : putByte m a b x = m x := by
  simp [putByte, Function.update_noteq h]

theorem put32_apply_ne (m : Mem) (a v x : Nat) (h : x < a ∨ a + 4 ≤ x) :
    put32 m a v x = m x := by
  unfold put32
  rw [putByte_apply_ne _ _ _ _ (by omega), putByte_apply_ne _ _ _ _ (by omega),
    putByte_apply_ne _ _ _ _ (by omega), putByte_apply_ne _ _ _ _ (by omega)]

theorem get32_put32_self (m : Mem) (a v : Nat) (hv : v < 4294967296) :
    get32 (put32 m a v) a = v := by
  unfold get32 put32
  rw [putByte_apply_ne _ _ _ _ (by omega), putByte_apply_ne _ _ _ _ (by omega),
    putByte_apply_ne _ _ _ _ (by omega), putByte_apply_self]
  rw [putByte_apply_ne _ _ _ (a + 1) (by omega), putByte_apply_ne _ _ _ (a + 1) (by omega),
    putByte_apply_self]
  rw [putByte_apply_ne _ _ _ (a + 2) (by omega), putByte_apply_self]
  rw [putByte_apply_self]
  omega

theorem get32_put32_disjoint (m : Mem) (a b v : Nat) (h : a + 4 ≤ b ∨ b + 4 ≤ a) :
    get32 (put32 m b v) a = get32 m a := by
  unfold get32
  rw [put32_apply_ne _ _ _ _ (by omega), put32_apply_ne _ _ _ _ (by omega),
    put32_apply_ne _ _ _ _ (by omega), put32_apply_ne _ _ _ _ (by omega)]

theorem putBytes_apply_out (l : List Nat) (m : Mem) (a x : Nat)
    (h : x < a ∨ a + l.length ≤ x) : putBytes m a l x = m x := by
  induction l generalizing m a with
  | nil => rfl
  | cons b t ih =>
      simp only [putBytes, List.length_cons] at *
      rw [ih _ _ (by omega), putByte_apply_ne _ _ _ _ (by omega)]

theorem putBytes_apply_in (l : List Nat) (m : Mem) (a i : Nat) (h : i < l.length) :
    putBytes m a l (a + i) = l.getD i 0 % 256 := by
  induction l generalizing m a i with
  | nil => simp at h
  | cons b t ih =>
      cases i with
      | zero =>
          simp only [putBytes]
          rw [putBytes_apply_out _ _ _ _ (by omega), Nat.add_zero, putByte_apply_self]
          rfl
      | succ j =>
          simp only [putBytes]
          have : a + (j + 1) = (a + 1) + j := by omega
          rw [this, ih _ _ _ (by simpa using Nat.lt_of_succ_lt_succ (by simpa using h))]
          rfl

theorem readBytes_putBytes (l : List Nat) (m : Mem) (a : Nat)
    (hb : ∀ b ∈ l, b < 256) :
    readBytes (putBytes m a l) a l.length = l := by
  apply List.ext_getElem
  · simp [readBytes]
  · intro i h1 h2
    simp only [readBytes, List.getElem_map, List.getElem_range]
    have hi : i < l.length := h2
    rw [putBytes_apply_in _ _ _ _ hi]
    have : l.getD i 0 = l[i] := by
      simp [List.getD_eq_getElem?_getD, List.getElem?_eq_getElem hi]
    rw [this, Nat.mod_eq_of_lt (hb _ (List.getElem_mem hi))]

theorem get32_putBytes_disjoint (l : List Nat) (m : Mem) (a b : Nat)
    (h : a + 4 ≤ b ∨ b + l.length ≤ a) :
    get32 (putBytes m b l) a = get32 m a := by
  unfold get32
  rw [putBytes_apply_out _ _ _ _ (by omega), putBytes_apply_out _ _ _ _ (by omega),
    putBytes_apply_out _ _ _ _ (by omega), putBytes_apply_out _ _ _ _ (by omega)]

theorem get32_putBytes_in (l : List Nat) (m : Mem) (b k : Nat)
    (hk : k + 4 ≤ l.length) (hb : ∀ x ∈ l, x < 256) :
    get32 (putBytes m b l) (b + k) = wordAt l k := by
  have hget : ∀ j, j < l.length → l.getD j 0 % 256 = l.getD j 0 := by
    intro j hj
    have : l.getD j 0 = l[j] := by
      simp [List.getD_eq_getElem?_getD, List.getElem?_eq_getElem hj]
    rw [this]
    exact Nat.mod_eq_of_lt (hb _ (List.getElem_mem hj))
  unfold get32 wordAt
  have e1 : b + k + 1 = b + (k + 1) := by omega
  have e2 : b + k + 2 = b + (k + 2) := by omega
  have e3 : b + k + 3 = b + (k + 3) := by omega
  rw [e1, e2, e3, putBytes_apply_in _ _ _ _ (by omega), putBytes_apply_in _ _ _ _ (by omega),
    putBytes_apply_in _ _ _ _ (by omega), putBytes_apply_in _ _ _ _ (by omega),
    hget _ (by omega), hget _ (by omega), hget _ (by omega), hget _ (by omega)]

theorem prun_nil (s : PState) : prun s [] = s := rfl

theorem prun_cons (s : PState) (e : PEvent) (es : List PEvent) :
    prun s (e :: es) = prun (pstep s e) es := rfl

theorem prun_append (s : PState) (a b : List PEvent) :
    prun s (a ++ b) = prun (prun s a) b := List.foldl_append ..

/-- With the flag clear, main-loop polls are no-ops. -/
theorem prun_poll_flag_false (ts : List Nat) (s : PState)
    (h : s.writeToEeprom = false) : prun s (ts.map PEvent.poll) = s := by
  induction ts generalizing s with
  | nil => rfl
  | cons t rest ih =>
      rw [List.map_cons, prun_cons]
      have hs : pstep s (PEvent.poll t) = s := by
        simp [pstep, h]
      rw [hs]
      exact ih s h

/-- With the flag set, a stretch of polls containing one whose 32-bit
`millis()` reading is past the timer performs exactly one store write
and clears the flag. -/
theorem prun_poll_fires (ts : List Nat) (s : PState)
    (hf : s.writeToEeprom = true)
    (h : ∃ t ∈ ts, s.writeTimer < t % 4294967296) :
    (prun s (ts.map PEvent.poll)).writes = s.writes + 1 ∧
    (prun s (ts.map PEvent.poll)).writeToEeprom = false := by
  induction ts generalizing s with
  | nil => simp at h
  | cons t rest ih =>
      rw [List.map_cons, prun_cons]
      by_cases hc : s.writeTimer < t % 4294967296
      · have hs : pstep s (PEvent.poll t) =
            { s with writeToEeprom := false, writes := s.writes + 1 } := by
          simp [pstep, hf, hc]
        rw [hs, prun_poll_flag_false _ _ rfl]
        exact ⟨rfl, rfl⟩
      · have hs : pstep s (PEvent.poll t) = s := by
          simp [pstep, hc]
        rw [hs]
        refine ih s hf ?_
        obtain ⟨u, hu, hlt⟩ := h
        rcases List.mem_cons.mp hu with h1 | h2
        · exact absurd (h1 ▸ hlt) hc
        · exact ⟨u, h2, hlt⟩

/-- Processing a segment whose events all happen no later than `C`
(as 32-bit `millis()` readings) while every dirty mark keeps the
(wrapped) timer at or beyond `C` performs no store write. -/
theorem prun_no_fire_segment (es : List PEvent) (C : Nat) (s : PState)
    (hst : s.writeToEeprom = true → C ≤ s.writeTimer)
    (hpoll : ∀ t, PEvent.poll t ∈ es → t % 4294967296 ≤ C)
    (hdirty : ∀ t, PEvent.dirty t ∈ es →
      C ≤ (t % 4294967296 + DELAY_TIME_BEFORE_WRITING_TO_EEPROM_IN_MS) % 4294967296) :
    (prun s es).writes = s.writes ∧
    ((prun s es).writeToEeprom = true → C ≤ (prun s es).writeTimer) := by
  induction es generalizing s with
  | nil => exact ⟨rfl, hst⟩
  | cons e rest ih =>
      rw [prun_cons]
      cases e with
      | dirty t =>
          have hs : pstep s (PEvent.dirty t) =
              { s with writeToEeprom := true,
                       writeTimer := (t % 4294967296 +
                         DELAY_TIME_BEFORE_WRITING_TO_EEPROM_IN_MS) % 4294967296 } := rfl
          rw [hs]
          have hrec := ih
            { s with writeToEeprom := true,
                     writeTimer := (t % 4294967296 +
                       DELAY_TIME_BEFORE_WRITING_TO_EEPROM_IN_MS) % 4294967296 }
            (fun _ => by simpa using hdirty t (by simp))
            (fun u hu => hpoll u (List.mem_cons_of_mem _ hu))
            (fun u hu => hdirty u (List.mem_cons_of_mem _ hu))
          simpa using hrec
      | poll t =>
          have hle : t % 4294967296 ≤ C := hpoll t (by simp)
          have hs : pstep s (PEvent.poll t) = s := by
            by_cases hf : s.writeToEeprom = true
            · have hnv : ¬ s.writeTimer < t % 4294967296 := by
                have := hst hf
                omega
              simp [pstep, hnv]
            · simp [pstep, hf]
          rw [hs]
          exact ih s hst (fun u hu => hpoll u (List.mem_cons_of_mem _ hu))
            (fun u hu => hdirty u (List.mem_cons_of_mem _ hu))

/-- C8 (amended): within a wrap-free stretch of `millis()` — every
dirty mark's 10,000 ms window ending below the 2^32 ms wraparound:
(a) any number of dirty notifications issued strictly within one
quiescence window of one another (interleaved with main loop polls,
with polling continuing past the window of the last one) cause exactly
one `eeprom.write`; (b) K dirty-notification blocks each containing a
poll beyond their own window (as happens when the marks are spaced
beyond the window, since `loop()` polls continuously) cause exactly K
writes; (c) a poll performs a write only when the dirty flag is set and
`millis() > writeTimer`. The claim's unconditional version is false
because `writeTimer = millis() + 10000` wraps at 2^32, making the very
next poll fire (see the counterexample). -/
theorem updateEepromTimer_coalesces :
    (∀ (A : List PEvent) (dl : Nat) (B : List Nat) (s : PState) (dmin : Nat),
      s.writeToEeprom = false →
      (∀ t, PEvent.dirty t ∈ A → dmin ≤ t ∧ t ≤ dl) →
      (∀ t, PEvent.poll t ∈ A → t ≤ dl) →
      dmin ≤ dl →
      dl < dmin + DELAY_TIME_BEFORE_WRITING_TO_EEPROM_IN_MS →
      dl + DELAY_TIME_BEFORE_WRITING_TO_EEPROM_IN_MS < 4294967296 →
      (∃ t ∈ B, dl + DELAY_TIME_BEFORE_WRITING_TO_EEPROM_IN_MS < t ∧ t < 4294967296) →
      (prun s (A ++ PEvent.dirty dl :: B.map PEvent.poll)).writes = s.writes + 1) ∧
    (∀ (blocks : List (Nat × List Nat)) (s : PState),
      (∀ b ∈ blocks, ∃ t ∈ b.2,
        (b.1 % 4294967296 + DELAY_TIME_BEFORE_WRITING_TO_EEPROM_IN_MS) % 4294967296 <
          t % 4294967296) →
      (prun s (ptrace blocks)).writes = s.writes + blocks.length) ∧
    (∀ (s : PState) (t : Nat),
      (pstep s (PEvent.poll t)).writes ≠ s.writes →
      s.writeToEeprom = true ∧ s.writeTimer < t % 4294967296) := by
  refine ⟨?_, ?_, ?_⟩
  · intro A dl B s dmin hflag hdA hpA hmindl hwin hnowrap hB
    rw [prun_append, prun_cons]
    have hseg := prun_no_fire_segment A (dmin + DELAY_TIME_BEFORE_WRITING_TO_EEPROM_IN_MS) s
      (by intro hf; rw [hflag] at hf; exact absurd hf (by simp))
      (by intro t ht; have := hpA t ht; omega)
      (by intro t ht; have h1 := (hdA t ht).1; have h2 := (hdA t ht).2; omega)
    set sA := prun s A with hsA
    have hstep : pstep sA (PEvent.dirty dl) =
        { sA with writeToEeprom := true,
                  writeTimer := (dl % 4294967296 +
                    DELAY_TIME_BEFORE_WRITING_TO_EEPROM_IN_MS) % 4294967296 } := rfl
    rw [hstep]
    have hex : ∃ t ∈ B,
        ((dl % 4294967296 + DELAY_TIME_BEFORE_WRITING_TO_EEPROM_IN_MS) % 4294967296 : Nat) <
          t % 4294967296 := by
      obtain ⟨t, htB, hlt, htM⟩ := hB
      exact ⟨t, htB, by omega⟩
    have hfire := prun_poll_fires B
      { sA with writeToEeprom := true,
                writeTimer := (dl % 4294967296 +
                  DELAY_TIME_BEFORE_WRITING_TO_EEPROM_IN_MS) % 4294967296 }
      rfl (by simpa using hex)
    rw [hfire.1]
    simp [hseg.1]
  · intro blocks
    induction blocks with
    | nil => intro s _; simp [ptrace, prun_nil]
    | cons b bs ih =>
        intro s h
        rw [ptrace, prun_append, pblock, prun_cons]
        have hstep : pstep s (PEvent.dirty b.1) =
            { s with writeToEeprom := true,
                     writeTimer := (b.1 % 4294967296 +
                       DELAY_TIME_BEFORE_WRITING_TO_EEPROM_IN_MS) % 4294967296 } := rfl
        rw [hstep]
        have hfire := prun_poll_fires b.2
          { s with writeToEeprom := true,
                   writeTimer := (b.1 % 4294967296 +
                     DELAY_TIME_BEFORE_WRITING_TO_EEPROM_IN_MS) % 4294967296 }
          rfl (by simpa using h b (by simp))
        rw [ih _ (fun c hc => h c (List.mem_cons_of_mem _ hc)), hfire.1]
        simp
        omega
  · intro s t h
    by_cases hc : s.writeToEeprom = true ∧ s.writeTimer < t % 4294967296
    · exact hc
    · exact absurd (by simp [pstep, hc]) h

/-- Witness for C8 at concrete traces (far from the `millis()` wrap):
three coalesced dirty marks at 100 ms, 6000 ms, 9000 ms (with an
interleaved poll) and a poll at 19100 ms yield one write; two
well-separated bursts yield two writes; a firing poll implies the flag
was set and the window had elapsed. -/
theorem updateEepromTimer_coalesces_witness :
    (prun ⟨false, 0, 0⟩ ([PEvent.dirty 100, PEvent.poll 5000, PEvent.dirty 6000] ++
      PEvent.dirty 9000 :: ([19100].map PEvent.poll))).writes = 0 + 1 ∧
    (prun ⟨false, 0, 0⟩ (ptrace [(0, [10001]), (20000, [30001])])).writes = 0 + 2 ∧
    ((⟨true, 0, 0⟩ : PState).writeToEeprom = true ∧
      (⟨true, 0, 0⟩ : PState).writeTimer < 1 % 4294967296) := by
  refine ⟨?_, ?_, ?_⟩
  · exact updateEepromTimer_coalesces.1 _ 9000 _ ⟨false, 0, 0⟩ 100 rfl
      (by
        intro t ht
        simp only [List.mem_cons, List.not_mem_nil, or_false] at ht
        rcases ht with h1 | h1 | h1 <;> first
          | (cases h1; omega)
          | (exact absurd h1 (by simp)))
      (by
        intro t ht
        simp only [List.mem_cons, List.not_mem_nil, or_false] at ht
        rcases ht with h1 | h1 | h1 <;> first
          | (cases h1; omega)
          | (exact absurd h1 (by simp)))
      (by norm_num) (by norm_num [DELAY_TIME_BEFORE_WRITING_TO_EEPROM_IN_MS])
      (by norm_num [DELAY_TIME_BEFORE_WRITING_TO_EEPROM_IN_MS])
      ⟨19100, by simp, by norm_num [DELAY_TIME_BEFORE_WRITING_TO_EEPROM_IN_MS],
        by norm_num⟩
  · exact updateEepromTimer_coalesces.2.1 _ ⟨false, 0, 0⟩ (by decide)
  · exact updateEepromTimer_coalesces.2.2 ⟨true, 0, 0⟩ 1 (by decide)

/-- C8 counterexample: near the 2^32 ms wrap of `millis()` (uptime
about 49.7 days), `writeTimer = millis() + 10000` overflows to a small
value and the very next poll satisfies `millis() > writeTimer`. Two
dirty marks 2000 ms apart — strictly within one 10,000 ms quiescence
window of each other — each followed by a main-loop poll 1 ms later,
produce TWO store writes, the first a mere 1 ms after its dirty mark:
both the exactly-one-write coalescing and the
write-only-after-a-full-window parts of the claim fail. -/
theorem updateEepromTimer_fires_early_near_wrap :
    (prun ⟨false, 0, 0⟩ [PEvent.dirty 4294962296, PEvent.poll 4294962297]).writes = 1 ∧
    (prun ⟨false, 0, 0⟩ [PEvent.dirty 4294962296, PEvent.poll 4294962297,
      PEvent.dirty 4294964296, PEvent.poll 4294964297]).writes = 2 ∧
    4294964296 - 4294962296 < DELAY_TIME_BEFORE_WRITING_TO_EEPROM_IN_MS ∧
    4294962297 - 4294962296 < DELAY_TIME_BEFORE_WRITING_TO_EEPROM_IN_MS ∧
    4294962296 + DELAY_TIME_BEFORE_WRITING_TO_EEPROM_IN_MS ≥ 4294967296 := by
  decide

/-! ## Settings serialization and `delayTimeMax` facts -/

theorem delayTimeMax_le (i : Fin NR_OF_EFFECTS) : delayTimeMax i ≤ 255 := by
  unfold delayTimeMax
  split_ifs <;> norm_num

theorem delayTimeMax_ge (i : Fin NR_OF_EFFECTS) : DELAY_TIME_MIN ≤ delayTimeMax i := by
  unfold delayTimeMax
  split_ifs <;> norm_num

theorem encodeSettings_length (s : SettingsObjType) : (encodeSettings s).length = 28 := rfl

theorem encodeSettings_bytes_lt (s : SettingsObjType) (hv : validSettings s) :
    ∀ b ∈ encodeSettings s, b < 256 := by
  obtain ⟨h1, h2, -, -⟩ := hv
  intro b hb
  have hd : ∀ i, s.delayTime i < 256 := by
    intro i
    have := (h1 i).2
    have := delayTimeMax_le i
    omega
  have hbf : ∀ i, s.baseFactorIndex i < 256 := by
    intro i
    have h := h2 i
    simp only [NR_OF_MULT_FACTORS] at h
    omega
  have hwet : (if s.isWetAndDrySelected then (1 : Nat) else 0) < 256 := by
    split_ifs <;> norm_num
  have heff : byteOfInt8 s.effect < 256 := by
    unfold byteOfInt8
    omega
  simp only [encodeSettings, List.mem_cons, List.not_mem_nil, or_false] at hb
  rcases hb with rfl|rfl|rfl|rfl|rfl|rfl|rfl|rfl|rfl|rfl|rfl|rfl|rfl|rfl|rfl|rfl|rfl|rfl|rfl|rfl|rfl|rfl|rfl|rfl|rfl|rfl|rfl|rfl <;>
    first | exact hd _ | exact hbf _ | exact hwet | exact heff

theorem decode_encode (s : SettingsObjType) (hlo : -128 ≤ s.effect)
    (hhi : s.effect ≤ 127) : decodeSettings (encodeSettings s) = s := by
  obtain ⟨dt, wet, eff, bfi⟩ := s
  simp only at hlo hhi
  unfold decodeSettings
  congr 1
  · funext i
    fin_cases i <;> rfl
  · cases wet <;> rfl
  · show int8OfByte (byteOfInt8 eff) = eff
    unfold int8OfByte byteOfInt8
    split_ifs <;> omega
  · funext i
    fin_cases i <;> rfl

/-! ## What a completed `Eeprom::write` does to the state -/

/-- Every unblocked `write` erases the word at the old cursor, then
writes `DATA_MARKER` and the record at the new cursor `A`, which is the
old cursor (empty store), the advanced address, or 0 (wrap). -/
theorem write_result (rs : List Nat) (e : Eeprom) (hb : e.blocked = false) :
    ∃ A : Nat, (Eeprom.write rs e).1 =
        { e with eeprom_currentAddress := A,
                 mem := putBytes
                   (put32 (put32 e.mem e.eeprom_currentAddress ERASE_MARKER) A DATA_MARKER)
                   (A + SIZE_OF_DATA_MARKER) rs } ∧
      (Eeprom.write rs e).2 = (rs.length : Int) + (SIZE_OF_DATA_MARKER : Int) ∧
      (A = e.eeprom_currentAddress ∨
        A = e.eeprom_currentAddress + rs.length + SIZE_OF_DATA_MARKER ∨ A = 0) := by
  unfold Eeprom.write
  by_cases hE : get32 e.mem e.eeprom_currentAddress = EMPTY_MARKER
  · refine ⟨e.eeprom_currentAddress, ?_, ?_, Or.inl rfl⟩ <;> simp [hb, hE]
  · by_cases hW : e.eeprom_currentAddress + rs.length + SIZE_OF_DATA_MARKER >
        e.eeprom_sizeInBytes - 1
    · refine ⟨0, ?_, ?_, Or.inr (Or.inr rfl)⟩ <;> simp [hb, hE, hW]
    · refine ⟨e.eeprom_currentAddress + rs.length + SIZE_OF_DATA_MARKER, ?_, ?_,
        Or.inr (Or.inl rfl)⟩ <;> simp [hb, hE, hW]

/-- If the record at the post-write cursor lies below the end of the
memory, the immediately following `read` finds the marker and returns
exactly the bytes just written. -/
theorem read_after_write (rs : List Nat) (e : Eeprom) (hb : e.blocked = false)
    (hlen : rs.length = SIZE_OF_SETTINGS_STRUCT) (hbytes : ∀ b ∈ rs, b < 256)
    (hfit : (Eeprom.write rs e).1.eeprom_currentAddress + SIZE_OF_SETTINGS_STRUCT ≤
      e.eeprom_sizeInBytes) :
    Eeprom.read SIZE_OF_SETTINGS_STRUCT (Eeprom.write rs e).1 =
      (some rs, (SIZE_OF_SETTINGS_STRUCT : Int)) := by
  obtain ⟨A, hw, -, -⟩ := write_result rs e hb
  rw [hw] at hfit ⊢
  simp only [SIZE_OF_DATA_MARKER, SIZE_OF_SETTINGS_STRUCT] at hfit ⊢
  replace hfit : A + 28 ≤ e.eeprom_sizeInBytes := hfit
  have hm : get32 (putBytes
      (put32 (put32 e.mem e.eeprom_currentAddress ERASE_MARKER) A DATA_MARKER)
      (A + 4) rs) A = DATA_MARKER := by
    rw [get32_putBytes_disjoint _ _ _ _ (Or.inl (by omega)),
      get32_put32_self _ _ _ (by norm_num)]
  unfold Eeprom.read
  rw [if_neg (by simp [hb]), if_neg (by simp only [SIZE_OF_SETTINGS_STRUCT]; simp; omega),
    if_pos hm]
  have hrb : readBytes (putBytes
      (put32 (put32 e.mem e.eeprom_currentAddress ERASE_MARKER) A DATA_MARKER)
      (A + 4) rs) (A + 4) 28 = rs := by
    have h28 : (28 : Nat) = rs.length := by rw [hlen]
    rw [h28, readBytes_putBytes rs _ _ hbytes]
  simp [hrb]

/-- C1 (amended): for every valid Settings value `S` and unblocked
store, `write(S)` returns 32 and the immediately following `read`
succeeds (returns `SIZE_OF_SETTINGS_STRUCT`) yielding a value equal to
`S` — provided the record at the post-write cursor still fits below the
end of the memory (`cursor' + SIZE_OF_SETTINGS_STRUCT ≤ capacity`).
This premise holds at every cursor of a store whose capacity is a
multiple of marker+record (e.g. a fresh 1024-byte EEPROM) but fails at
reachable cursor positions near the end of other stores, where the
claimed round trip breaks (see the counterexample). -/
theorem eeprom_write_read_roundtrip (e : Eeprom) (S : SettingsObjType)
    (hb : e.blocked = false) (hv : validSettings S)
    (hfit : (Eeprom.write (encodeSettings S) e).1.eeprom_currentAddress +
      SIZE_OF_SETTINGS_STRUCT ≤ e.eeprom_sizeInBytes) :
    Eeprom.readSettings (Eeprom.write (encodeSettings S) e).1 =
      (some S, (SIZE_OF_SETTINGS_STRUCT : Int)) ∧
    (Eeprom.write (encodeSettings S) e).2 =
      (SIZE_OF_SETTINGS_STRUCT : Int) + (SIZE_OF_DATA_MARKER : Int) := by
  have hread := read_after_write (encodeSettings S) e hb (encodeSettings_length S)
    (encodeSettings_bytes_lt S hv) hfit
  constructor
  · have heff : 0 ≤ S.effect ∧ S.effect < (13 : Int) := by
      have h := hv.2.2
      simpa [NR_OF_EFFECTS] using h
    unfold Eeprom.readSettings
    rw [hread]
    show (some (decodeSettings (encodeSettings S)), (SIZE_OF_SETTINGS_STRUCT : Int)) =
      (some S, (SIZE_OF_SETTINGS_STRUCT : Int))
    rw [decode_encode S (by omega) (by omega)]
  · obtain ⟨A, -, hr, -⟩ := write_result (encodeSettings S) e hb
    rw [hr, encodeSettings_length]

/-- Witness for C1 at a concrete input: the fresh 70-byte store, first
write at address 0; the premise holds and the round trip succeeds. -/
theorem eeprom_write_read_roundtrip_witness :
    e70.blocked = false ∧ validSettings sGood ∧
    (Eeprom.write (encodeSettings sGood) e70).1.eeprom_currentAddress +
      SIZE_OF_SETTINGS_STRUCT ≤ e70.eeprom_sizeInBytes ∧
    Eeprom.readSettings (Eeprom.write (encodeSettings sGood) e70).1 =
      (some sGood, (SIZE_OF_SETTINGS_STRUCT : Int)) := by
  refine ⟨by decide, by decide, by decide, ?_⟩
  exact (eeprom_write_read_roundtrip e70 sGood (by decide) (by decide) (by decide)).1

/-- C1 counterexample: on the unblocked, fresh-initialized 70-byte
store, the first two writes land at 0 and 32; the third write succeeds
(returns 32) and moves the cursor to the reachable address 64 near the
end of the memory, and the immediately following read returns -1, not
`SIZE_OF_SETTINGS_STRUCT`, so the round trip fails. -/
theorem eeprom_roundtrip_fails_near_end :
    (iterWrite (encodeSettings sGood) e70 2).blocked = false ∧
    (iterWrite (encodeSettings sGood) e70 2).eeprom_currentAddress = 32 ∧
    (Eeprom.write (encodeSettings sGood) (iterWrite (encodeSettings sGood) e70 2)).2 = 32 ∧
    (iterWrite (encodeSettings sGood) e70 3).eeprom_currentAddress = 64 ∧
    (Eeprom.readSettings (iterWrite (encodeSettings sGood) e70 3)).2 = -1 ∧
    ((Eeprom.readSettings (iterWrite (encodeSettings sGood) e70 3)).1).isNone = true := by
  decide

/-! ## C2: erase-before-advance and marker uniqueness -/

/-- C2 (amended): (a) after a completed `write`, the live `DATA_MARKER`
word sits only at the new cursor — provided the pre-state had its only
live marker at the cursor AND no marker-aligned 4-byte word of the
serialized payload equals `DATA_MARKER` (the class documents that it
cannot cope with marker-patterned payloads; the counterexample shows
the property indeed fails for them); (b) crash safety: if execution
stops between `eraseMarkerByte` and the write of the new marker, a
subsequent scan (`init`) plus `read` reports NotFound (-1), never a
stale record. -/
theorem write_erase_before_advance :
    (∀ (rs : List Nat) (e : Eeprom),
      e.blocked = false →
      rs.length = 28 →
      (∀ b ∈ rs, b < 256) →
      (∀ k, k < 25 → k % 4 = 0 → wordAt rs k ≠ DATA_MARKER) →
      e.eeprom_currentAddress % 4 = 0 →
      liveMarkerUnique e.mem e.eeprom_sizeInBytes e.eeprom_currentAddress →
      liveMarkerUnique (Eeprom.write rs e).1.mem e.eeprom_sizeInBytes
        (Eeprom.write rs e).1.eeprom_currentAddress) ∧
    (∀ (e : Eeprom),
      32 ≤ e.eeprom_sizeInBytes →
      e.eeprom_currentAddress % 4 = 0 →
      liveMarkerUnique e.mem e.eeprom_sizeInBytes e.eeprom_currentAddress →
      (Eeprom.read SIZE_OF_SETTINGS_STRUCT (Eeprom.init SIZE_OF_SETTINGS_STRUCT
        e.eeprom_sizeInBytes
        (put32 e.mem e.eeprom_currentAddress ERASE_MARKER))).1.isNone = true ∧
      (Eeprom.read SIZE_OF_SETTINGS_STRUCT (Eeprom.init SIZE_OF_SETTINGS_STRUCT
        e.eeprom_sizeInBytes
        (put32 e.mem e.eeprom_currentAddress ERASE_MARKER))).2 = -1) := by
  constructor
  · intro rs e hb hlen hbytes hword hc4 huniq
    obtain ⟨A, hw, -, hA⟩ := write_result rs e hb
    replace hA : A = e.eeprom_currentAddress ∨
        A = e.eeprom_currentAddress + rs.length + 4 ∨ A = 0 := hA
    rw [hw]
    intro a ha h4 hd
    show a = A
    replace ha : a < e.eeprom_sizeInBytes := ha
    replace hd : get32 (putBytes
      (put32 (put32 e.mem e.eeprom_currentAddress ERASE_MARKER) A DATA_MARKER)
      (A + 4) rs) a = DATA_MARKER := hd
    have hA4 : A % 4 = 0 := by
      rcases hA with rfl | rfl | rfl <;> omega
    by_cases haA : a = A
    · exact haA
    · exfalso
      by_cases hpay : A + 4 ≤ a ∧ a < A + 32
      · have hk : a = (A + 4) + (a - A - 4) := by omega
        rw [hk] at hd
        rw [get32_putBytes_in rs _ _ _ (by omega) hbytes] at hd
        exact hword (a - A - 4) (by omega) (by omega) hd
      · rw [get32_putBytes_disjoint _ _ _ _ (by omega)] at hd
        rw [get32_put32_disjoint _ _ _ _ (by omega)] at hd
        by_cases hac : a = e.eeprom_currentAddress
        · rw [hac, get32_put32_self _ _ _ (by norm_num)] at hd
          exact absurd hd (by decide)
        · rw [get32_put32_disjoint _ _ _ _ (by omega)] at hd
          exact hac (huniq a ha h4 hd)
  · intro e hsz hc4 huniq
    have h28 : (SIZE_OF_SETTINGS_STRUCT : Nat) = 28 := rfl
    have h4sz : (SIZE_OF_DATA_MARKER : Nat) = 4 := rfl
    have hscan : findMarker (put32 e.mem e.eeprom_currentAddress ERASE_MARKER)
        e.eeprom_sizeInBytes SIZE_OF_SETTINGS_STRUCT = none := by
      unfold findMarker
      have hfind : (List.range (numScanSlots e.eeprom_sizeInBytes SIZE_OF_SETTINGS_STRUCT)).find?
          (fun k => get32 (put32 e.mem e.eeprom_currentAddress ERASE_MARKER) (4 * k) ==
            DATA_MARKER) = none := by
        rw [List.find?_eq_none]
        intro k hk
        simp only [List.mem_range] at hk
        have h4k : 4 * k < e.eeprom_sizeInBytes := by
          unfold numScanSlots at hk
          omega
        simp only [beq_iff_eq]
        by_cases hkc : 4 * k = e.eeprom_currentAddress
        · rw [hkc, get32_put32_self _ _ _ (by norm_num)]
          decide
        · rw [get32_put32_disjoint _ _ _ _ (by omega)]
          intro hEq
          exact hkc (huniq (4 * k) h4k (by omega) hEq)
      rw [hfind]
      rfl
    have hinit : Eeprom.init SIZE_OF_SETTINGS_STRUCT e.eeprom_sizeInBytes
        (put32 e.mem e.eeprom_currentAddress ERASE_MARKER) =
        { eeprom_sizeInBytes := e.eeprom_sizeInBytes, eeprom_currentAddress := 0,
          blocked := false,
          mem := put32 (put32 e.mem e.eeprom_currentAddress ERASE_MARKER) 0 EMPTY_MARKER } := by
      unfold Eeprom.init
      rw [if_neg (by decide), if_neg (by omega), hscan]
    rw [hinit]
    have hmark : ¬ (get32 (put32 (put32 e.mem e.eeprom_currentAddress ERASE_MARKER) 0
        EMPTY_MARKER) 0 = DATA_MARKER) := by
      rw [get32_put32_self _ _ _ (by norm_num)]
      decide
    unfold Eeprom.read
    rw [if_neg (by simp), if_neg (by simp only [Nat.zero_add]; omega), if_neg hmark]
    exact ⟨rfl, rfl⟩

/-- Witness for C2 at a concrete input: the 70-byte store holding one
`sGood` record at address 0; a further write keeps the marker unique,
and a crash after the erase leaves `read` reporting -1. -/
theorem write_erase_before_advance_witness :
    (e70w.blocked = false ∧ e70w.eeprom_currentAddress % 4 = 0 ∧
      liveMarkerUnique e70w.mem e70w.eeprom_sizeInBytes e70w.eeprom_currentAddress) ∧
    liveMarkerUnique (Eeprom.write (encodeSettings sGood) e70w).1.mem
      e70w.eeprom_sizeInBytes
      (Eeprom.write (encodeSettings sGood) e70w).1.eeprom_currentAddress ∧
    (Eeprom.read SIZE_OF_SETTINGS_STRUCT (Eeprom.init SIZE_OF_SETTINGS_STRUCT
      e70w.eeprom_sizeInBytes
      (put32 e70w.mem e70w.eeprom_currentAddress ERASE_MARKER))).2 = -1 := by
  refine ⟨⟨by decide, by decide, by decide⟩, ?_, ?_⟩
  · exact write_erase_before_advance.1 (encodeSettings sGood) e70w (by decide) rfl
      (by decide) (by decide) (by decide) (by decide)
  · exact (write_erase_before_advance.2 e70w (by decide) (by decide) (by decide)).2

/-- C2 counterexample: writing the valid settings value `sMarker`
(payload bytes `delayTime[4..7] = 0x66` form the marker pattern at a
marker-aligned offset) leaves TWO marker-aligned addresses — 0 and 8 —
holding the live `DATA_MARKER` after a completed write. -/
theorem write_two_live_markers :
    validSettings sMarker ∧
    eMark.eeprom_currentAddress = 0 ∧
    get32 eMark.mem 0 = DATA_MARKER ∧
    get32 eMark.mem 8 = DATA_MARKER ∧
    ¬ liveMarkerUnique eMark.mem eMark.eeprom_sizeInBytes eMark.eeprom_currentAddress := by
  decide

/-! ## C3: cursor advance / wrap rule -/

/-- C3 (amended): for every write after the first, the store computes
`next = cursor + recordSize + markerSize` and wraps to 0 exactly when
`next > capacity - 1` — NOT when `next + markerSize + recordSize >
capacity` as claimed; with capacity 512, marker 4 and record 16, the
first write lands at 0 and the second at 20, but the cursor first
returns to 0 only on write 27 — after 26 writes it sits at 500, where
the written record runs past the end of the memory. -/
theorem write_cursor_advance_rule :
    (∀ (rs : List Nat) (e : Eeprom),
      e.blocked = false →
      get32 e.mem e.eeprom_currentAddress ≠ EMPTY_MARKER →
      (Eeprom.write rs e).1.eeprom_currentAddress =
        if e.eeprom_currentAddress + rs.length + SIZE_OF_DATA_MARKER >
            e.eeprom_sizeInBytes - 1 then 0
        else e.eeprom_currentAddress + rs.length + SIZE_OF_DATA_MARKER) ∧
    (iterWrite rs16 e512 1).eeprom_currentAddress = 0 ∧
    (iterWrite rs16 e512 2).eeprom_currentAddress = 20 ∧
    (iterWrite rs16 e512 26).eeprom_currentAddress = 500 ∧
    (iterWrite rs16 e512 27).eeprom_currentAddress = 0 := by
  refine ⟨?_, by decide, by decide, by decide, by decide⟩
  intro rs e hb hne
  simp [Eeprom.write, hb, hne]

/-- Witness for C3: the advance rule applied at the concrete 512-byte
store after its first write (cursor 0, live marker present). -/
theorem write_cursor_advance_rule_witness :
    (iterWrite rs16 e512 1).blocked = false ∧
    get32 (iterWrite rs16 e512 1).mem
      (iterWrite rs16 e512 1).eeprom_currentAddress ≠ EMPTY_MARKER ∧
    (Eeprom.write rs16 (iterWrite rs16 e512 1)).1.eeprom_currentAddress =
      if (iterWrite rs16 e512 1).eeprom_currentAddress + rs16.length + SIZE_OF_DATA_MARKER >
          (iterWrite rs16 e512 1).eeprom_sizeInBytes - 1 then 0
      else (iterWrite rs16 e512 1).eeprom_currentAddress + rs16.length +
        SIZE_OF_DATA_MARKER := by
  refine ⟨by decide, by decide, ?_⟩
  exact write_cursor_advance_rule.1 rs16 (iterWrite rs16 e512 1) (by decide) (by decide)

/-- C3 counterexample: after 26 writes the cursor has NOT wrapped back
to address 0 — it sits at 500, and the record written there (marker at
500..503, payload at 504..519) crosses the 512-byte capacity. -/
theorem write_scenario_after_26_writes :
    (iterWrite rs16 e512 26).eeprom_currentAddress = 500 ∧
    (500 : Nat) ≠ 0 ∧
    (iterWrite rs16 e512 26).eeprom_currentAddress + SIZE_OF_DATA_MARKER + 16 > 512 := by
  refine ⟨by decide, by decide, by decide⟩

/-! ## C9: boot-time load performs no validation -/

/-- C9 (amended): the boot-time load (`eeprom.read(&settings)` in
`setup()`) performs no field validation and schedules no re-persist:
when the read succeeds the stored bytes are adopted verbatim — even
when a field violates its invariant — and only when the read fails does
the in-memory struct keep its compiled-in default value. -/
theorem bootLoad_adopts_stored_record (defaults : SettingsObjType) (e : Eeprom) :
    (∀ s r, Eeprom.readSettings e = (some s, r) → bootLoad defaults e = s) ∧
    (∀ r, Eeprom.readSettings e = (none, r) → bootLoad defaults e = defaults) := by
  constructor
  · intro s r h
    unfold bootLoad
    rw [h]
  · intro r h
    unfold bootLoad
    rw [h]

/-- Witness for C9: the load of the stored out-of-range record in
`eBad` adopts its effect field 100 verbatim. -/
theorem bootLoad_adopts_stored_record_witness :
    (bootLoad defaultSettings eBad).effect = 100 ∧
    (Eeprom.readSettings eBad).2 = 28 := by
  refine ⟨?_, by decide⟩
  have h : Eeprom.readSettings eBad =
      (some (decodeSettings (readBytes eBad.mem 4 28)), 28) := rfl
  rw [(bootLoad_adopts_stored_record defaultSettings eBad).1 _ _ h]
  decide

/-- C9 counterexample: the record stored in `eBad` carries effect = 100
(≥ NR_OF_EFFECTS = 13); after the boot-time load the in-memory settings
hold effect 100 — no default (INITIAL_EFFECT) was substituted, so the
in-memory settings start out violating the invariant. -/
theorem bootLoad_keeps_out_of_range_effect :
    (bootLoad defaultSettings eBad).effect = 100 ∧
    ¬ ((bootLoad defaultSettings eBad).effect < (NR_OF_EFFECTS : Int)) ∧
    defaultSettings.effect = INITIAL_EFFECT ∧
    (bootLoad defaultSettings eBad).effect ≠ defaultSettings.effect := by
  decide

/-! ## C4, C5: encoder-event bounds on delay value and ratio index -/

/-- C4 (amended): in SetParameter mode on the plain ±1 path (fine-tune
on, or symbolic timing off, or a chorus/reverb effect) the delay value
stays within [DELAY_TIME_MIN, delayTimeMax[effect]] for effects whose
convention is `countDirection = RIGHT`: the CCW branch clamps below and
the CW branch clamps above (for values below 255). The claim's
unconditional invariant is false: for `countDirection = LEFT` effects
the branches clamp on the wrong side and the value escapes the range
(see the counterexample). -/
theorem rotate_right_preserves_delay_bounds (s : Sys) (symRaw : Nat)
    (hsel : s.inSelectMode = false)
    (hcd : s.countDirection = RIGHT_byte)
    (hplain : s.fineTuneDelayTime = true ∨ s.useSymbolicTimeString = false ∨
      isChorusOrReverb s.settings.effect = true)
    (hlo : DELAY_TIME_MIN ≤ s.settings.delayTime (idx13 s.settings.effect))
    (hhi : s.settings.delayTime (idx13 s.settings.effect) ≤
      delayTimeMax (idx13 s.settings.effect)) :
    (DELAY_TIME_MIN ≤ (rotateStep symRaw Dir.ccw s).settings.delayTime
        (idx13 s.settings.effect) ∧
      (rotateStep symRaw Dir.ccw s).settings.delayTime (idx13 s.settings.effect) ≤
        delayTimeMax (idx13 s.settings.effect)) ∧
    (s.settings.delayTime (idx13 s.settings.effect) < 255 →
      DELAY_TIME_MIN ≤ (rotateStep symRaw Dir.cw s).settings.delayTime
        (idx13 s.settings.effect) ∧
      (rotateStep symRaw Dir.cw s).settings.delayTime (idx13 s.settings.effect) ≤
        delayTimeMax (idx13 s.settings.effect)) := by
  have hM := delayTimeMax_le (idx13 s.settings.effect)
  have hMg := delayTimeMax_ge (idx13 s.settings.effect)
  have hDm : (DELAY_TIME_MIN : Nat) = 7 := rfl
  constructor
  · rcases hplain with h | h | h <;>
      (simp only [rotateStep, hsel, h, hcd, RIGHT_byte, byteSub, Bool.not_true,
        Bool.not_false, Bool.false_and, Bool.and_false, Bool.true_and, Bool.and_true,
        Bool.false_eq_true, if_false, ite_true, ite_false, Function.update_same];
       constructor <;> split_ifs <;> omega)
  · intro hlt
    rcases hplain with h | h | h <;>
      (simp only [rotateStep, hsel, h, hcd, RIGHT_byte, byteAdd, Bool.not_true,
        Bool.not_false, Bool.false_and, Bool.and_false, Bool.true_and, Bool.and_true,
        Bool.false_eq_true, if_false, ite_true, ite_false, Function.update_same];
       constructor <;> split_ifs <;> omega)

/-- Witness for C4 at a concrete input: a RIGHT-convention effect
(short delay) at delay value 20; CCW stays at or above the minimum and
CW stays at or below the maximum. -/
theorem rotate_right_preserves_delay_bounds_witness :
    c4rstate.inSelectMode = false ∧ c4rstate.countDirection = RIGHT_byte ∧
    DELAY_TIME_MIN ≤ (rotateStep 0 Dir.ccw c4rstate).settings.delayTime
      (idx13 c4rstate.settings.effect) ∧
    (rotateStep 0 Dir.cw c4rstate).settings.delayTime (idx13 c4rstate.settings.effect) ≤
      delayTimeMax (idx13 c4rstate.settings.effect) := by
  refine ⟨rfl, rfl, ?_, ?_⟩
  · exact (rotate_right_preserves_delay_bounds c4rstate 0 rfl rfl (Or.inr (Or.inl rfl))
      (by decide) (by decide)).1.1
  · exact ((rotate_right_preserves_delay_bounds c4rstate 0 rfl rfl (Or.inr (Or.inl rfl))
      (by decide) (by decide)).2 (by decide)).2

/-- C4 counterexample: wow-not-flutter (convention `countDirection =
LEFT`, i.e. the byte 255) with its delay value at the upper bound 60: a
single CCW encoder event in SetParameter mode yields 61, outside
[DELAY_TIME_MIN, delayTimeMax[9]] — the CCW branch only clamps below. -/
theorem rotate_left_escapes_delay_bounds :
    c4state.inSelectMode = false ∧ c4state.countDirection = LEFT_byte ∧
    c4state.settings.effect = WOW_NOT_FLUTTER ∧
    DELAY_TIME_MIN ≤ c4state.settings.delayTime (idx13 c4state.settings.effect) ∧
    c4state.settings.delayTime (idx13 c4state.settings.effect) =
      delayTimeMax (idx13 c4state.settings.effect) ∧
    (rotateStep 0 Dir.ccw c4state).settings.delayTime (idx13 c4state.settings.effect) = 61 ∧
    delayTimeMax (idx13 c4state.settings.effect) <
      (rotateStep 0 Dir.ccw c4state).settings.delayTime (idx13 c4state.settings.effect) := by
  decide

/-- C5 (amended): the rhythmic-ratio index stays within
[0, NR_OF_MULT_FACTORS - 1] for every CW event (the CW branch clamps at
the top, which also catches the byte wraparound at index 0), and for
CCW events when `countDirection = RIGHT` (saturating at 0); for
`countDirection = LEFT` effects a CCW event at index 15 produces the
out-of-range index 16 (see the counterexample), which the `rotate` and
`extClock` handlers then use to subscript `baseFactor[16]`. -/
theorem rotate_baseFactorIndex_bounds (s : Sys) (symRaw : Nat)
    (hsel : s.inSelectMode = false)
    (hbfi : s.settings.baseFactorIndex (idx13 s.settings.effect) ≤
      NR_OF_MULT_FACTORS - 1) :
    (s.countDirection = RIGHT_byte →
      (rotateStep symRaw Dir.ccw s).settings.baseFactorIndex (idx13 s.settings.effect) ≤
        NR_OF_MULT_FACTORS - 1) ∧
    ((rotateStep symRaw Dir.cw s).settings.baseFactorIndex (idx13 s.settings.effect) ≤
      NR_OF_MULT_FACTORS - 1) := by
  have h16 : (NR_OF_MULT_FACTORS : Nat) - 1 = 15 := rfl
  constructor
  · intro hcd
    simp only [rotateStep, hsel, hcd, RIGHT_byte, byteSub, Bool.false_eq_true, if_false,
      Function.update_same]
    split_ifs <;> omega
  · simp only [rotateStep, hsel, byteAdd, Bool.false_eq_true, if_false,
      Function.update_same]
    split_ifs <;> omega

/-- Witness for C5 at a concrete input: a RIGHT-convention effect at
ratio index 7; both encoder directions keep the index within range. -/
theorem rotate_baseFactorIndex_bounds_witness :
    c4rstate.inSelectMode = false ∧
    c4rstate.settings.baseFactorIndex (idx13 c4rstate.settings.effect) ≤
      NR_OF_MULT_FACTORS - 1 ∧
    (rotateStep 0 Dir.ccw c4rstate).settings.baseFactorIndex
      (idx13 c4rstate.settings.effect) ≤ NR_OF_MULT_FACTORS - 1 ∧
    (rotateStep 0 Dir.cw c4rstate).settings.baseFactorIndex
      (idx13 c4rstate.settings.effect) ≤ NR_OF_MULT_FACTORS - 1 := by
  refine ⟨rfl, by decide, ?_, ?_⟩
  · exact (rotate_baseFactorIndex_bounds c4rstate 0 rfl (by decide)).1 rfl
  · exact (rotate_baseFactorIndex_bounds c4rstate 0 rfl (by decide)).2

/-- C5 counterexample: reverb (convention `countDirection = LEFT`) with
its ratio index at the saturation bound 15: a single CCW event in
SetParameter mode yields index 16 ≥ NR_OF_MULT_FACTORS, so the
subsequent `baseFactor[...]` reads in `rotate`/`extClock` are
out-of-bounds array accesses. -/
theorem rotate_left_overflows_baseFactorIndex :
    c5state.inSelectMode = false ∧ c5state.countDirection = LEFT_byte ∧
    c5state.settings.effect = REVERB ∧
    c5state.settings.baseFactorIndex (idx13 c5state.settings.effect) =
      NR_OF_MULT_FACTORS - 1 ∧
    (rotateStep 0 Dir.ccw c5state).settings.baseFactorIndex
      (idx13 c5state.settings.effect) = 16 ∧
    NR_OF_MULT_FACTORS - 1 <
      (rotateStep 0 Dir.ccw c5state).settings.baseFactorIndex
        (idx13 c5state.settings.effect) := by
  decide

/-! ## C10: tempo-derived overwrite in the clock handler -/

/-- C10 (confirmed): whenever `extClock` completes an averaging window
(the incremented `irqCounter` exceeds `NR_OF_CYCLES`) while fine-tune
is off, it overwrites `settings.delayTime[settings.effect]` with the
tempo-derived byte clamped into [DELAY_TIME_MIN, delayTimeMax[effect]]
— for every effect (chorus, fast chorus and reverb included: `extClock`
has no `isChorusOrReverb` guard, unlike the encoder path) and
regardless of `inSelectMode`, which `extClock` never consults.
`tempoRaw` stands for the float expression `byte(236.88 * pow(0.9978,
baseFactor[...] * cycleTime / 1000))` evaluated at this call. -/
theorem extClock_overwrites_delayTime (s : Sys) (tempoRaw now : Nat)
    (hft : s.fineTuneDelayTime = false)
    (hwin : (s.irqCounter + 1) % 256 > NR_OF_CYCLES)
    (htr : tempoRaw ≤ 255) :
    (extClock tempoRaw now s).settings.delayTime (idx13 s.settings.effect) =
      (if tempoRaw > delayTimeMax (idx13 s.settings.effect)
       then delayTimeMax (idx13 s.settings.effect)
       else if tempoRaw < DELAY_TIME_MIN then DELAY_TIME_MIN else tempoRaw) ∧
    DELAY_TIME_MIN ≤ (extClock tempoRaw now s).settings.delayTime
      (idx13 s.settings.effect) ∧
    (extClock tempoRaw now s).settings.delayTime (idx13 s.settings.effect) ≤
      delayTimeMax (idx13 s.settings.effect) := by
  have hM := delayTimeMax_le (idx13 s.settings.effect)
  have hMg := delayTimeMax_ge (idx13 s.settings.effect)
  have hDm : (DELAY_TIME_MIN : Nat) = 7 := rfl
  have htr2 : tempoRaw % 256 = tempoRaw := Nat.mod_eq_of_lt (by omega)
  simp only [extClock, hwin, hft, Bool.not_false, if_true, ite_true, htr2,
    Function.update_same]
  refine ⟨?_, ?_, ?_⟩ <;> split_ifs <;> omega

/-- Witness for C10 at a concrete input: the chorus effect, in
SelectEffect mode, window completing (irqCounter 3 → 4), raw tempo byte
200: the delay value is overwritten with the clamped value. -/
theorem extClock_overwrites_delayTime_witness :
    c10state.fineTuneDelayTime = false ∧
    (c10state.irqCounter + 1) % 256 > NR_OF_CYCLES ∧
    c10state.settings.effect = CHORUS ∧ c10state.inSelectMode = true ∧
    DELAY_TIME_MIN ≤ (extClock 200 2000000 c10state).settings.delayTime
      (idx13 c10state.settings.effect) ∧
    (extClock 200 2000000 c10state).settings.delayTime
      (idx13 c10state.settings.effect) ≤ delayTimeMax (idx13 c10state.settings.effect) := by
  refine ⟨rfl, by decide, rfl, rfl, ?_, ?_⟩
  · exact (extClock_overwrites_delayTime c10state 200 2000000 rfl (by decide)
      (by decide)).2.1
  · exact (extClock_overwrites_delayTime c10state 200 2000000 rfl (by decide)
      (by decide)).2.2

/-! ## C6, C7: the external-clock estimator -/

theorem emissions_cons (s : Sys) (t : Nat) (ts : List Nat) :
    emissions s (t :: ts) =
      if (s.irqCounter + 1) % 256 > NR_OF_CYCLES
      then (extClock 0 t s).cycleTime :: emissions (extClock 0 t s) ts
      else emissions (extClock 0 t s) ts := rfl

/-- A pulse that does not complete the averaging window only advances
the counter, accumulator and timestamps. -/
theorem extClock_no_emit (s : Sys) (t : Nat)
    (h : ¬ ((s.irqCounter + 1) % 256 > NR_OF_CYCLES)) :
    extClock 0 t s = { s with
      irqCounter := (s.irqCounter + 1) % 256,
      thisTime := t % 4294967296,
      sumTime := (s.sumTime + u32sub (t % 4294967296) s.oldTime) % 4294967296,
      oldTime := t % 4294967296 } := by
  simp only [extClock, h, if_false]

/-- A pulse that completes the averaging window divides the accumulated
sum by the incremented counter and resets both. -/
theorem extClock_emit_fields (s : Sys) (t : Nat)
    (h : (s.irqCounter + 1) % 256 > NR_OF_CYCLES) :
    (extClock 0 t s).cycleTime =
      ((s.sumTime + u32sub (t % 4294967296) s.oldTime) % 4294967296) /
        ((s.irqCounter + 1) % 256) ∧
    (extClock 0 t s).irqCounter = 0 ∧ (extClock 0 t s).sumTime = 0 ∧
    (extClock 0 t s).useSymbolicTimeString = true := by
  simp [extClock, h]

/-- C6 (amended): from a reset accumulator state the estimator emits
its estimate on the FOURTH pulse — when the incremented `irqCounter`
(4) first exceeds `NR_OF_CYCLES` (3) — and the emitted estimate is the
floor mean of the FOUR accumulated inter-pulse intervals, after which
the counter and the accumulator are reset to zero. The claim's window
of exactly 3 intervals (an estimate already after three pulses) is
refuted by the counterexample; at an exact spacing of 500 ms the mean
over the 4-interval window is still 500 ms (see the witness). -/
theorem extClock_emits_mean_of_four (s : Sys) (t1 t2 t3 t4 : Nat)
    (h0 : s.irqCounter = 0) (hsum : s.sumTime = 0)
    (h01 : s.oldTime ≤ t1) (h12 : t1 ≤ t2) (h23 : t2 ≤ t3) (h34 : t3 ≤ t4)
    (hM : t4 < 4294967296) :
    emissions s [t1, t2, t3, t4] =
      [((t1 - s.oldTime) + (t2 - t1) + (t3 - t2) + (t4 - t3)) / 4] ∧
    (extClockRun s [t1, t2, t3, t4]).irqCounter = 0 ∧
    (extClockRun s [t1, t2, t3, t4]).sumTime = 0 := by
  have e1 : extClock 0 t1 s = { s with
      irqCounter := 1, thisTime := t1,
      sumTime := t1 - s.oldTime, oldTime := t1 } := by
    rw [extClock_no_emit s t1 (by rw [h0]; decide), h0, hsum]
    congr 1 <;> first | rfl | omega | (simp only [u32sub]; omega)
  have e2 : extClock 0 t2 (extClock 0 t1 s) = { s with
      irqCounter := 2, thisTime := t2,
      sumTime := t2 - s.oldTime, oldTime := t2 } := by
    rw [e1, extClock_no_emit _ t2 (show ¬((1 + 1) % 256 > NR_OF_CYCLES) by decide)]
    congr 1 <;> first | rfl | omega | (simp only [u32sub]; omega)
  have e3 : extClock 0 t3 (extClock 0 t2 (extClock 0 t1 s)) =
      { s with
        irqCounter := 3, thisTime := t3,
        sumTime := t3 - s.oldTime, oldTime := t3 } := by
    rw [e2, extClock_no_emit _ t3 (show ¬((2 + 1) % 256 > NR_OF_CYCLES) by decide)]
    congr 1 <;> first | rfl | omega | (simp only [u32sub]; omega)
  have hcyc : (extClock 0 t4 (extClock 0 t3 (extClock 0 t2 (extClock 0 t1 s)))).cycleTime =
      ((t1 - s.oldTime) + (t2 - t1) + (t3 - t2) + (t4 - t3)) / 4 := by
    rw [e3, (extClock_emit_fields _ t4 (show (3 + 1) % 256 > NR_OF_CYCLES by decide)).1]
    simp only [u32sub]
    norm_num
    omega
  have hrun : extClockRun s [t1, t2, t3, t4] =
      extClock 0 t4 (extClock 0 t3 (extClock 0 t2 (extClock 0 t1 s))) := by
    simp only [extClockRun, List.foldl_cons, List.foldl_nil]
  refine ⟨?_, ?_, ?_⟩
  · rw [emissions_cons, if_neg (by rw [h0]; decide),
      emissions_cons, if_neg (by rw [e1]; exact (show ¬((1 + 1) % 256 > NR_OF_CYCLES) by decide)),
      emissions_cons, if_neg (by rw [e2]; exact (show ¬((2 + 1) % 256 > NR_OF_CYCLES) by decide)),
      emissions_cons, if_pos (by rw [e3]; exact (show (3 + 1) % 256 > NR_OF_CYCLES by decide)),
      hcyc]
    rfl
  · rw [hrun, e3]
    exact (extClock_emit_fields _ t4 (show (3 + 1) % 256 > NR_OF_CYCLES by decide)).2.1
  · rw [hrun, e3]
    exact (extClock_emit_fields _ t4 (show (3 + 1) % 256 > NR_OF_CYCLES by decide)).2.2.1

/-- Witness for C6 at a concrete input: from the boot state, four
pulses at exactly 500 ms spacing emit the single estimate 500000 µs and
reset the accumulator. -/
theorem extClock_emits_mean_of_four_witness :
    bootSys.irqCounter = 0 ∧ bootSys.sumTime = 0 ∧
    emissions bootSys [500000, 1000000, 1500000, 2000000] = [500000] ∧
    (extClockRun bootSys [500000, 1000000, 1500000, 2000000]).irqCounter = 0 ∧
    (extClockRun bootSys [500000, 1000000, 1500000, 2000000]).sumTime = 0 := by
  have h := extClock_emits_mean_of_four bootSys 500000 1000000 1500000 2000000 rfl rfl
    (by decide) (by decide) (by decide) (by decide) (by decide)
  refine ⟨rfl, rfl, ?_, h.2.1, h.2.2⟩
  rw [h.1]
  decide

/-- C6 counterexample: three pulses at exactly 500 ms spacing from the
reset state emit NO estimate at all (the guard `irqCounter >
NR_OF_CYCLES` first holds on the fourth pulse), and `cycleTime` is
left untouched — not 500 ms as claimed. -/
theorem extClock_three_pulses_no_estimate :
    bootSys.irqCounter = 0 ∧ bootSys.sumTime = 0 ∧
    emissions bootSys [500000, 1000000, 1500000] = [] ∧
    (extClockRun bootSys [500000, 1000000, 1500000]).cycleTime = 0 ∧
    (extClockRun bootSys [500000, 1000000, 1500000]).cycleTime ≠ 500000 := by
  decide

/-- C7 (amended): the clock-timeout handling at the end of `loop()`
only clears `useSymbolicTimeString` and restores the LED period when
the 2,000,000 µs timeout has elapsed: the interval accumulator
`sumTime`, the pulse counter `irqCounter`, the last-pulse timestamp
`oldTime` and `cycleTime` are left untouched, so the first estimate
computed after pulses resume incorporates the gap-spanning interval and
any pre-gap accumulated intervals (see the counterexample). -/
theorem timeoutCheck_resets_nothing (now : Nat) (s : Sys) :
    (timeoutCheck now s).irqCounter = s.irqCounter ∧
    (timeoutCheck now s).sumTime = s.sumTime ∧
    (timeoutCheck now s).oldTime = s.oldTime ∧
    (timeoutCheck now s).cycleTime = s.cycleTime ∧
    (s.useSymbolicTimeString = true → EXT_CLOCK_TIMEOUT < u32sub now s.thisTime →
      (timeoutCheck now s).useSymbolicTimeString = false) := by
  unfold timeoutCheck
  split_ifs with h <;> simp_all

/-- Witness for C7 at a concrete input: after run A's pre-gap pulses,
the timeout at 5.1 s clears the symbolic flag but leaves the
accumulator untouched. -/
theorem timeoutCheck_resets_nothing_witness :
    (timeoutCheck 5100000 (extClockRun bootSys c7preA)).sumTime =
      (extClockRun bootSys c7preA).sumTime ∧
    (timeoutCheck 5100000 (extClockRun bootSys c7preA)).irqCounter =
      (extClockRun bootSys c7preA).irqCounter ∧
    (timeoutCheck 5100000 (extClockRun bootSys c7preA)).useSymbolicTimeString = false := by
  refine ⟨(timeoutCheck_resets_nothing 5100000 _).2.1,
    (timeoutCheck_resets_nothing 5100000 _).1, ?_⟩
  exact (timeoutCheck_resets_nothing 5100000 _).2.2.2.2 (by decide) (by decide)

/-- C7 counterexample: two runs sharing the SAME post-gap pulses (at
5.2 s, 5.7 s, 6.2 s — identical post-gap intervals of 500 ms) but
different pre-gap histories produce different first post-gap estimates
(925000 µs vs 1050000 µs, neither of them the 500000 µs spacing of the
post-gap pulses): the stale accumulator contents and the gap-spanning
interval are carried into the estimate. -/
theorem extClock_first_estimate_depends_on_pregap :
    c7stateA.useSymbolicTimeString = false ∧
    c7stateB.useSymbolicTimeString = false ∧
    (emissions c7stateA c7post).head? = some 925000 ∧
    (emissions c7stateB c7post).head? = some 1050000 ∧
    (925000 : Nat) ≠ 1050000 ∧ (925000 : Nat) ≠ 500000 := by
  decide
